import Mathlib

/-!
Verification of the security-middleware pipeline of a FastAPI backend.

Each definition is a shallow embedding of one Python function of the
repository (file and symbol named in its doc comment).  Timestamps are
modelled as `ℚ` where fractional seconds and rounding matter (the rate
limiters), and as `ℕ` where only ordering and elapsed-time comparisons
matter (circuit breaker, alerting, DDoS guard).  Per-key `defaultdict`
state is modelled by the state of one key, which is sound because the
Python code touches only the key of the current request.
-/

namespace PyStr

/-- Python's `s.split(sep)[0]` on character lists: everything before the
first occurrence of `sep`. -/
def splitFirst (sep : Char) : List Char → List Char
  | [] => []
  | c :: cs => if c = sep then [] else c :: splitFirst sep cs

/-- Python's `s.strip()` on character lists. -/
def trimChars (l : List Char) : List Char :=
  ((l.dropWhile Char.isWhitespace).reverse.dropWhile Char.isWhitespace).reverse

end PyStr

namespace Alerting

/-- State of `AlertingMiddleware` for one event type: `counters[event_type]`
and `last_alert.get(event_type, 0)` from
`src/app/middleware/monitoring.py`. -/
structure AlertState where
  counter : Nat
  lastAlert : Nat
  deriving Repr, DecidableEq

/-- Initial state: `defaultdict(int)` counter and absent `last_alert`
(read back as `0` by `self.last_alert.get(event_type, 0)`). -/
def initAlert : AlertState := ⟨0, 0⟩

/-- `AlertingMiddleware._check_alert` (monitoring.py lines 191-203) for one
event type, with `_send_alert` modelled by returning the dispatched count:
increment the counter; if it has reached the threshold and the cooldown
since the last alert has elapsed (`now - last_alert > cooldown`), fire an
alert carrying the current counter value (`_send_alert` reads
`self.counters[event_type]` before the reset), record the alert time and
reset the counter to zero. -/
def checkAlert (threshold cooldown : Nat) (s : AlertState) (now : Nat) :
    AlertState × Option Nat :=
  let c := s.counter + 1
  if threshold ≤ c then
    if s.lastAlert + cooldown < now then
      (⟨0, now⟩, some c)
    else
      (⟨c, s.lastAlert⟩, none)
  else
    (⟨c, s.lastAlert⟩, none)

theorem checkAlert_fire {threshold cooldown : Nat} {s : AlertState} {now : Nat}
    (h1 : threshold ≤ s.counter + 1) (h2 : s.lastAlert + cooldown < now) :
    checkAlert threshold cooldown s now = (⟨0, now⟩, some (s.counter + 1)) := by
  simp [checkAlert, h1, h2]

theorem checkAlert_cases (threshold cooldown : Nat) (s : AlertState) (now : Nat) :
    checkAlert threshold cooldown s now = (⟨0, now⟩, some (s.counter + 1)) ∨
    checkAlert threshold cooldown s now = (⟨s.counter + 1, s.lastAlert⟩, none) := by
  by_cases h1 : threshold ≤ s.counter + 1
  · by_cases h2 : s.lastAlert + cooldown < now
    · exact Or.inl (by simp [checkAlert, h1, h2])
    · exact Or.inr (by simp [checkAlert, h1, h2])
  · exact Or.inr (by simp [checkAlert, h1])

theorem checkAlert_fired_inv {threshold cooldown : Nat} {s : AlertState} {now : Nat}
    {s' : AlertState} {c : Nat}
    (h : checkAlert threshold cooldown s now = (s', some c)) :
    s' = ⟨0, now⟩ ∧ c = s.counter + 1 ∧ s.lastAlert + cooldown < now := by
  by_cases h1 : threshold ≤ s.counter + 1
  · by_cases h2 : s.lastAlert + cooldown < now
    · rw [checkAlert_fire h1 h2] at h
      exact ⟨(Prod.mk.injEq _ _ _ _ ▸ h).1.symm, by
        cases h; exact rfl, h2⟩
    · simp [checkAlert, h1, h2] at h
  · simp [checkAlert, h1] at h

theorem checkAlert_lastAlert_mono (threshold cooldown : Nat) (s : AlertState)
    (now : Nat) : s.lastAlert ≤ (checkAlert threshold cooldown s now).1.lastAlert := by
  rcases checkAlert_cases threshold cooldown s now with h | h
  · rw [h]
    have := (checkAlert_fired_inv (by rw [h])).2.2
    simp only
    omega
  · rw [h]

/-- Run `_check_alert` over a sequence of observed events (their
timestamps), collecting the times at which alerts fired. -/
def runAlerts (threshold cooldown : Nat) : List Nat → AlertState → AlertState × List Nat
  | [], s => (s, [])
  | t :: ts, s =>
    let step := checkAlert threshold cooldown s t
    let rest := runAlerts threshold cooldown ts step.1
    (rest.1, (match step.2 with | some _ => [t] | none => []) ++ rest.2)

theorem runAlerts_nil (threshold cooldown : Nat) (s : AlertState) :
    runAlerts threshold cooldown [] s = (s, []) := rfl

theorem runAlerts_cons (threshold cooldown : Nat) (t : Nat) (ts : List Nat)
    (s : AlertState) :
    runAlerts threshold cooldown (t :: ts) s =
      ((runAlerts threshold cooldown ts (checkAlert threshold cooldown s t).1).1,
        (match (checkAlert threshold cooldown s t).2 with
          | some _ => [t] | none => []) ++
        (runAlerts threshold cooldown ts (checkAlert threshold cooldown s t).1).2) := rfl

theorem runAlerts_lastAlert_mono (threshold cooldown : Nat) :
    ∀ (ts : List Nat) (s : AlertState),
      s.lastAlert ≤ (runAlerts threshold cooldown ts s).1.lastAlert := by
  intro ts
  induction ts with
  | nil => intro s; simp [runAlerts_nil]
  | cons t ts ih =>
    intro s
    rw [runAlerts_cons]
    exact le_trans (checkAlert_lastAlert_mono threshold cooldown s t)
      (ih (checkAlert threshold cooldown s t).1)

/-- Every fired time is strictly later than `cooldown` after the incoming
state's `lastAlert`, and is bounded by the final `lastAlert`. -/
theorem runAlerts_fired_bounds (threshold cooldown : Nat) :
    ∀ (ts : List Nat) (s : AlertState) (t : Nat),
      t ∈ (runAlerts threshold cooldown ts s).2 →
      s.lastAlert + cooldown < t ∧ t ≤ (runAlerts threshold cooldown ts s).1.lastAlert := by
  intro ts
  induction ts with
  | nil => intro s t h; simp [runAlerts_nil] at h
  | cons u ts ih =>
    intro s t h
    rcases checkAlert_cases threshold cooldown s u with hc | hc
    · -- the head event fired at time u
      have h2 : s.lastAlert + cooldown < u := (checkAlert_fired_inv hc).2.2
      rw [runAlerts_cons, hc] at h ⊢
      dsimp only at h ⊢
      simp only [List.mem_append, List.mem_singleton] at h
      rcases h with rfl | h
      · exact ⟨h2, runAlerts_lastAlert_mono threshold cooldown ts ⟨0, t⟩⟩
      · have htail := ih ⟨0, u⟩ t h
        dsimp only at htail
        exact ⟨by omega, htail.2⟩
    · -- the head event did not fire
      rw [runAlerts_cons, hc] at h ⊢
      dsimp only at h ⊢
      have htail := ih ⟨s.counter + 1, s.lastAlert⟩ t h
      dsimp only at htail
      exact htail

/-- Any two distinct fired alert times of one run for one event type are
more than `cooldown` apart. -/
theorem runAlerts_pairwise (threshold cooldown : Nat) :
    ∀ (ts : List Nat) (s : AlertState),
      ((runAlerts threshold cooldown ts s).2).Pairwise
        (fun a b => a + cooldown < b) := by
  intro ts
  induction ts with
  | nil => intro s; simp [runAlerts_nil]
  | cons u ts ih =>
    intro s
    rcases checkAlert_cases threshold cooldown s u with hc | hc
    · rw [runAlerts_cons, hc]
      dsimp only
      rw [List.singleton_append, List.pairwise_cons]
      constructor
      · intro b hb
        have := runAlerts_fired_bounds threshold cooldown ts ⟨0, u⟩ b hb
        dsimp only at this
        exact this.1
      · exact ih ⟨0, u⟩
    · rw [runAlerts_cons, hc]
      dsimp only
      rw [List.nil_append]
      exact ih ⟨s.counter + 1, s.lastAlert⟩

end Alerting

namespace SimpleRateLimit

/-- Sliding windows of `SimpleRateLimitMiddleware` for one client:
`minute_windows[client_id]` and `hour_windows[client_id]` from
`src/app/middleware/security.py`. -/
structure RLState where
  minute : List ℚ
  hour : List ℚ
  deriving Repr, DecidableEq

/-- Fresh client: `defaultdict(list)` yields empty windows. -/
def initRL : RLState := ⟨[], []⟩

/-- `SimpleRateLimitMiddleware._check_rate_limit` (security.py lines
309-340) for one client.  Prune both windows to their horizons
(`t > now - 60`, `t > now - 3600`); deny with retry-after `60` when the
pruned minute window has at least `rpm + burst` entries; otherwise deny
with retry-after `int(oldest + 3600 - now)` (truncation, equal to the
floor since the value is positive for in-horizon timestamps) when the
pruned hour window has at least `rph` entries; otherwise append `now` to
both windows and allow.  Python's `min([])` raises when `rph = 0` and the
hour window is empty; that unreachable-for-positive-`rph` case is
modelled as retry-after `0`. -/
def checkRateLimit (rpm rph burst : Nat) (s : RLState) (now : ℚ) :
    RLState × Bool × ℤ :=
  let m := s.minute.filter (fun t => now - 60 < t)
  let h := s.hour.filter (fun t => now - 3600 < t)
  if rpm + burst ≤ m.length then
    (⟨m, h⟩, false, 60)
  else if rph ≤ h.length then
    match h.min? with
    | some oldest => (⟨m, h⟩, false, ⌊oldest + 3600 - now⌋)
    | none => (⟨m, h⟩, false, 0)
  else
    (⟨m ++ [now], h ++ [now]⟩, true, 0)

/-- The window-size invariant maintained by the middleware: at most
`rpm + burst` timestamps in the minute window (the burst allowance is
extra headroom on the per-minute limit) and at most `rph` in the hour
window. -/
def RLInv (rpm rph burst : Nat) (s : RLState) : Prop :=
  s.minute.length ≤ rpm + burst ∧ s.hour.length ≤ rph

instance (rpm rph burst : Nat) (s : RLState) : Decidable (RLInv rpm rph burst s) := by
  unfold RLInv; infer_instance

/-- One call preserves the window-size invariant. -/
theorem checkRateLimit_preserves_inv (rpm rph burst : Nat) (s : RLState) (now : ℚ)
    (hs : RLInv rpm rph burst s) :
    RLInv rpm rph burst (checkRateLimit rpm rph burst s now).1 := by
  rcases hs with ⟨hm, hh⟩
  have hm' : (s.minute.filter (fun t => now - 60 < t)).length ≤ rpm + burst :=
    le_trans (List.length_filter_le _ _) hm
  have hh' : (s.hour.filter (fun t => now - 3600 < t)).length ≤ rph :=
    le_trans (List.length_filter_le _ _) hh
  unfold checkRateLimit RLInv
  by_cases h1 : rpm + burst ≤ (s.minute.filter (fun t => now - 60 < t)).length
  · simp only [h1, if_pos]
    exact ⟨hm', hh'⟩
  · by_cases h2 : rph ≤ (s.hour.filter (fun t => now - 3600 < t)).length
    · rcases hmin : (s.hour.filter (fun t => now - 3600 < t)).min? with _ | oldest
      · simp only [h1, if_neg, not_false_iff, h2, if_pos, hmin]
        exact ⟨hm', hh'⟩
      · simp only [h1, if_neg, not_false_iff, h2, if_pos, hmin]
        exact ⟨hm', hh'⟩
    · simp only [h1, if_neg, not_false_iff, h2]
      simp only [List.length_append, List.length_singleton]
      omega

/-- A denied call appends nothing: the resulting windows are exactly the
prunings of the old windows, so the in-horizon timestamps are unchanged
and the window sizes do not grow. -/
theorem checkRateLimit_denied (rpm rph burst : Nat) (s : RLState) (now : ℚ)
    (hdeny : (checkRateLimit rpm rph burst s now).2.1 = false) :
    (checkRateLimit rpm rph burst s now).1.minute =
        s.minute.filter (fun t => now - 60 < t) ∧
    (checkRateLimit rpm rph burst s now).1.hour =
        s.hour.filter (fun t => now - 3600 < t) := by
  unfold checkRateLimit at hdeny ⊢
  by_cases h1 : rpm + burst ≤ (s.minute.filter (fun t => now - 60 < t)).length
  · simp [h1]
  · by_cases h2 : rph ≤ (s.hour.filter (fun t => now - 3600 < t)).length
    · rcases hmin : (s.hour.filter (fun t => now - 3600 < t)).min? with _ | oldest
      · simp [h1, h2, hmin]
      · simp [h1, h2, hmin]
    · simp [h1, h2] at hdeny

/-- Run a sequence of checks (the request times) from a state. -/
def runRL (rpm rph burst : Nat) : List ℚ → RLState → RLState
  | [], s => s
  | t :: ts, s => runRL rpm rph burst ts (checkRateLimit rpm rph burst s t).1

/-- The invariant holds at every instant of every run from the empty
initial state. -/
theorem runRL_inv (rpm rph burst : Nat) :
    ∀ (ts : List ℚ) (s : RLState), RLInv rpm rph burst s →
      RLInv rpm rph burst (runRL rpm rph burst ts s) := by
  intro ts
  induction ts with
  | nil => intro s hs; exact hs
  | cons t ts ih =>
    intro s hs
    exact ih _ (checkRateLimit_preserves_inv rpm rph burst s t hs)

end SimpleRateLimit

namespace RedisRateLimit

/-- The Lua script of `RedisRateLimitMiddleware`
(`src/app/middleware/rate_limit.py` lines 39-65), acting on the sorted
set of timestamps stored at one key.  `ZREMRANGEBYSCORE key 0 (now -
window)` removes the scores in `[0, now - window]`; on the nonnegative
timestamps the script stores, that keeps exactly the scores
`> now - window`.  If fewer than `limit` remain, `now` is added and
`{1, limit - current - 1}` returned; otherwise the oldest remaining
score (`ZRANGE key 0 0 WITHSCORES`, the minimum) yields
`retry_after = math.ceil(oldest + window - now)`, or `0` when the set is
empty. -/
def luaRateLimit (limit : Nat) (window : ℚ) (zset : List ℚ) (now : ℚ) :
    List ℚ × Bool × ℤ :=
  let kept := zset.filter (fun t => now - window < t)
  if kept.length < limit then
    (kept ++ [now], true, (limit : ℤ) - kept.length - 1)
  else
    match kept.min? with
    | some oldest => (kept, false, ⌈oldest + window - now⌉)
    | none => (kept, false, 0)

/-- On denial with a nonempty window, the Lua script's retry-after is
`⌈oldest + window - now⌉`, which is the least integer `r` with
`oldest + window ≤ now + r`: the minimal whole number of seconds after
which the oldest counted timestamp has aged out of the horizon. -/
theorem luaRateLimit_retry_minimal (limit : Nat) (window : ℚ) (zset : List ℚ)
    (now oldest : ℚ)
    (hmin : ((zset.filter (fun t => now - window < t)).min?) = some oldest)
    (hdeny : (luaRateLimit limit window zset now).2.1 = false) :
    (luaRateLimit limit window zset now).2.2 = ⌈oldest + window - now⌉ ∧
    oldest + window ≤ now + (luaRateLimit limit window zset now).2.2 ∧
    ∀ r : ℤ, oldest + window ≤ now + r →
      (luaRateLimit limit window zset now).2.2 ≤ r := by
  unfold luaRateLimit at hdeny ⊢
  by_cases h1 : (zset.filter (fun t => now - window < t)).length < limit
  · simp [h1] at hdeny
  · simp only [h1, if_neg, not_false_iff, hmin]
    refine ⟨by trivial, ?_, ?_⟩
    · have := Int.le_ceil (oldest + window - now)
      have h2 : (oldest + window - now : ℚ) ≤ (⌈oldest + window - now⌉ : ℚ) := this
      linarith
    · intro r hr
      have : (oldest + window - now : ℚ) ≤ (r : ℚ) := by linarith
      exact Int.ceil_le.mpr this

end RedisRateLimit

namespace CircuitBreaker

/-- The three circuit states of `CircuitBreakerMiddleware`
(`self.states` holds the strings `"closed"`, `"open"`, `"half_open"`). -/
inductive CBSt where
  | closed
  | opened
  | halfOpen
  deriving Repr, DecidableEq

/-- State of `CircuitBreakerMiddleware` for one endpoint key
(`f"{method}:{path}"`): `states[endpoint]` (`defaultdict` default
`"closed"`), `failure_counts[endpoint]` (default `0`) and
`last_failure_times.get(endpoint, 0)` from
`src/app/middleware/advanced.py`. -/
structure CBState where
  st : CBSt
  failures : Nat
  lastFailure : Nat
  deriving Repr, DecidableEq

/-- Fresh endpoint key. -/
def initCB : CBState := ⟨.closed, 0, 0⟩

/-- Outcome of invoking the downstream handler: a response with a status
code, or an exception of the expected type escaping the handler. -/
inductive Outcome where
  | ok (code : Nat)
  | exn
  deriving Repr, DecidableEq

/-- What the middleware hands back for the request. -/
inductive CBResult where
  /-- Short-circuit 503, optionally carrying a `Retry-After` header value. -/
  | reject (retryAfter : Option Nat)
  /-- The downstream response is passed through with its status code. -/
  | response (code : Nat)
  /-- The exception is re-raised to the caller. -/
  | propagate
  deriving Repr, DecidableEq

/-- `CircuitBreakerMiddleware._record_failure` (advanced.py lines
259-270): increment the failure count, stamp the failure time, and open
the circuit once the count reaches the threshold. -/
def recordFailure (threshold : Nat) (s : CBState) (now : Nat) : CBState :=
  let f := s.failures + 1
  ⟨if threshold ≤ f then .opened else s.st, f, now⟩

/-- `CircuitBreakerMiddleware._record_success` (advanced.py lines
253-257): reset the failure count; a half-open circuit closes. -/
def recordSuccess (s : CBState) : CBState :=
  ⟨if s.st = .halfOpen then .closed else s.st, 0, s.lastFailure⟩

/-- `CircuitBreakerMiddleware.dispatch` (advanced.py lines 205-247) for
one endpoint key, returning the new state, the result, and whether the
downstream handler was invoked.  An open circuit whose recovery timeout
has not yet elapsed (`_should_attempt_reset`, lines 272-275:
`now - last_failure >= recovery_timeout`) is rejected with 503 and
`Retry-After: recovery_timeout` without invoking the handler; otherwise
the circuit moves to half-open and the request proceeds.  A response
with status `>= 500` records a failure, any other records a success; an
escaped expected exception records a failure and is re-raised unless the
circuit is then open, in which case a 503 without `Retry-After` is
returned. -/
def cbDispatch (threshold timeout : Nat) (s : CBState) (now : Nat)
    (out : Outcome) : CBState × CBResult × Bool :=
  if s.st = .opened ∧ now < s.lastFailure + timeout then
    (s, .reject (some timeout), false)
  else
    let s1 : CBState := if s.st = .opened then ⟨.halfOpen, s.failures, s.lastFailure⟩ else s
    match out with
    | .ok code =>
      if 500 ≤ code then
        (recordFailure threshold s1 now, .response code, true)
      else
        (recordSuccess s1, .response code, true)
    | .exn =>
      let s2 := recordFailure threshold s1 now
      if s2.st = .opened then
        (s2, .reject none, true)
      else
        (s2, .propagate, true)

/-- States reachable from `initCB` satisfy: an open or half-open circuit
carries at least `threshold` recorded failures. -/
def CBInv (threshold : Nat) (s : CBState) : Prop :=
  (s.st = .opened → threshold ≤ s.failures) ∧ s.st ≠ .halfOpen

instance (threshold : Nat) (s : CBState) : Decidable (CBInv threshold s) := by
  unfold CBInv; infer_instance

theorem cbDispatch_preserves_inv (threshold timeout : Nat) (s : CBState)
    (now : Nat) (out : Outcome) (hs : CBInv threshold s) :
    CBInv threshold (cbDispatch threshold timeout s now out).1 := by
  rcases s with ⟨st, f, lf⟩
  rcases hs with ⟨hopen, hhalf⟩
  rcases out with code | _ <;> cases st <;>
    simp only [cbDispatch, recordFailure, recordSuccess, CBInv] at hopen hhalf ⊢ <;>
    split_ifs <;>
    simp_all <;>
    omega

/-- An outcome counted as a failure by the middleware: a response with
status `>= 500`, or an escaped expected exception. -/
def FailOut : Outcome → Prop
  | .ok code => 500 ≤ code
  | .exn => True

instance (out : Outcome) : Decidable (FailOut out) := by
  cases out <;> unfold FailOut <;> infer_instance

theorem cbDispatch_closed_fail (threshold timeout f lf now : Nat)
    (out : Outcome) (hf : FailOut out) :
    (cbDispatch threshold timeout ⟨.closed, f, lf⟩ now out).1 =
      ⟨if threshold ≤ f + 1 then .opened else .closed, f + 1, now⟩ := by
  rcases out with code | _
  · have h5 : 500 ≤ code := hf
    simp [cbDispatch, recordFailure, h5]
  · by_cases ht : threshold ≤ f + 1 <;>
      simp [cbDispatch, recordFailure, ht]

/-- While the circuit is open and the recovery timeout has not elapsed,
every request is rejected with a 503 carrying `Retry-After:
recovery_timeout`, the downstream handler is not invoked, and the state
is untouched — regardless of what the handler would have produced. -/
theorem cbDispatch_open_cold (threshold timeout f lf now : Nat)
    (out : Outcome) (h : now < lf + timeout) :
    cbDispatch threshold timeout ⟨.opened, f, lf⟩ now out =
      (⟨.opened, f, lf⟩, .reject (some timeout), false) := by
  simp [cbDispatch, h]

theorem cbDispatch_open_probe_success (threshold timeout f lf now code : Nat)
    (helapsed : lf + timeout ≤ now) (hc : code < 500) :
    cbDispatch threshold timeout ⟨.opened, f, lf⟩ now (.ok code) =
      (⟨.closed, 0, lf⟩, .response code, true) := by
  simp [cbDispatch, recordSuccess, Nat.not_lt.mpr helapsed, Nat.not_le.mpr hc]

theorem cbDispatch_open_probe_fail (threshold timeout f lf now : Nat)
    (out : Outcome) (helapsed : lf + timeout ≤ now) (hf : FailOut out)
    (hth : threshold ≤ f) :
    (cbDispatch threshold timeout ⟨.opened, f, lf⟩ now out).1 =
      ⟨.opened, f + 1, now⟩ ∧
    (cbDispatch threshold timeout ⟨.opened, f, lf⟩ now out).2.2 = true := by
  have ht : threshold ≤ f + 1 := le_trans hth (Nat.le_succ f)
  rcases out with code | _
  · have h5 : 500 ≤ code := hf
    constructor <;>
      simp [cbDispatch, recordFailure, Nat.not_lt.mpr helapsed, h5, ht]
  · constructor <;>
      simp [cbDispatch, recordFailure, Nat.not_lt.mpr helapsed, ht]

/-- Run the circuit breaker over a sequence of requests, each given by
its arrival time and the outcome its downstream handling would have. -/
def runCB (threshold timeout : Nat) : List (Nat × Outcome) → CBState → CBState
  | [], s => s
  | e :: es, s => runCB threshold timeout es (cbDispatch threshold timeout s e.1 e.2).1

theorem runCB_all_failures (threshold timeout : Nat) :
    ∀ (es : List (Nat × Outcome)) (s : CBState),
      (∀ e ∈ es, FailOut e.2) →
      ((s.st = .closed ∧ 1 ≤ es.length ∧ threshold ≤ s.failures + es.length) ∨
        (s.st = .opened ∧ threshold ≤ s.failures)) →
      (runCB threshold timeout es s).st = .opened ∧
        threshold ≤ (runCB threshold timeout es s).failures := by
  intro es
  induction es with
  | nil =>
    intro s _ hdisj
    rcases hdisj with ⟨_, hlen, _⟩ | ⟨hst, hth⟩
    · simp at hlen
    · exact ⟨hst, hth⟩
  | cons e es ih =>
    intro s hfail hdisj
    have hfe : FailOut e.2 := hfail e (List.mem_cons_self e es)
    have hftail : ∀ x ∈ es, FailOut x.2 := fun x hx => hfail x (List.mem_cons_of_mem e hx)
    rcases s with ⟨st, f, lf⟩
    rcases hdisj with ⟨hst, _, hth⟩ | ⟨hst, hth⟩
    · -- closed
      dsimp only at hst hth
      subst hst
      rw [runCB]
      rw [cbDispatch_closed_fail threshold timeout f lf e.1 e.2 hfe]
      by_cases ht : threshold ≤ f + 1
      · refine ih _ hftail (Or.inr ?_)
        simp [ht]
      · refine ih _ hftail (Or.inl ?_)
        simp only [ht, if_neg, not_false_iff]
        simp only [List.length_cons] at hth
        refine ⟨by trivial, ?_, ?_⟩ <;> dsimp only <;> omega
    · -- opened
      dsimp only at hst hth
      subst hst
      rw [runCB]
      by_cases hcold : e.1 < lf + timeout
      · rw [cbDispatch_open_cold threshold timeout f lf e.1 e.2 hcold]
        exact ih _ hftail (Or.inr ⟨rfl, hth⟩)
      · have helapsed : lf + timeout ≤ e.1 := Nat.not_lt.mp hcold
        rw [(cbDispatch_open_probe_fail threshold timeout f lf e.1 e.2
          helapsed hfe hth).1]
        refine ih _ hftail (Or.inr ⟨rfl, ?_⟩)
        dsimp only
        omega

end CircuitBreaker

namespace ContentValidation

/-- Python's `path.startswith(pattern)` on character lists:
`startsWithL pat path` is true iff `path` begins with `pat`. -/
def startsWithL : List Char → List Char → Bool
  | [], _ => true
  | _ :: _, [] => false
  | k :: ks, p :: ps => decide (k = p) && startsWithL ks ps

/-- Two prefixes of the same list are comparable: one is a prefix of the
other. -/
theorem startsWithL_total :
    ∀ (p a b : List Char), startsWithL a p = true → startsWithL b p = true →
      startsWithL a b = true ∨ startsWithL b a = true := by
  intro p
  induction p with
  | nil =>
    intro a b ha _
    cases a with
    | nil => exact Or.inl rfl
    | cons x xs => simp [startsWithL] at ha
  | cons z p ih =>
    intro a b ha hb
    cases a with
    | nil => exact Or.inl rfl
    | cons x xs =>
      cases b with
      | nil => exact Or.inr rfl
      | cons y ys =>
        simp only [startsWithL, Bool.and_eq_true, decide_eq_true_eq] at ha hb
        rcases ha with ⟨rfl, ha⟩
        rcases hb with ⟨rfl, hb⟩
        rcases ih xs ys ha hb with h | h
        · exact Or.inl (by simp [startsWithL, h])
        · exact Or.inr (by simp [startsWithL, h])

/-- Chaining `startsWithL`. -/
theorem startsWithL_trans :
    ∀ (a b p : List Char), startsWithL a b = true → startsWithL b p = true →
      startsWithL a p = true := by
  intro a
  induction a with
  | nil => intro b p _ _; rfl
  | cons x xs ih =>
    intro b p hab hbp
    cases b with
    | nil => simp [startsWithL] at hab
    | cons y ys =>
      cases p with
      | nil => simp [startsWithL] at hbp
      | cons z zs =>
        simp only [startsWithL, Bool.and_eq_true, decide_eq_true_eq] at hab hbp ⊢
        rcases hab with ⟨rfl, hab⟩
        rcases hbp with ⟨rfl, hbp⟩
        exact ⟨rfl, ih ys zs hab hbp⟩

def kApiUpload : List Char := "/api/upload".toList

def kApiImport : List Char := "/api/import".toList

def kApi : List Char := "/api/".toList

def kWebhook : List Char := "/webhook".toList

def kGraphql : List Char := "/graphql".toList

def kRoot : List Char := "/".toList

/-- `ContentValidationMiddleware.DEFAULT_LIMITS`
(`src/app/middleware/security.py` lines 96-103) in dict insertion order. -/
def defaultLimits : List (List Char × Nat) :=
  [(kApiUpload, 50 * 1024 * 1024),
   (kApiImport, 10 * 1024 * 1024),
   (kApi, 1 * 1024 * 1024),
   (kWebhook, 256 * 1024),
   (kGraphql, 100 * 1024),
   (kRoot, 64 * 1024)]

/-- `ContentValidationMiddleware._get_size_limit` (security.py lines
203-208): iterate the size-limit table in insertion order and return the
limit of the FIRST key that is a prefix of the path
(`path.startswith(pattern)`); fall back to the table's `"/"` entry,
defaulting to 64 KiB. -/
def getSizeLimit (limits : List (List Char × Nat)) (path : List Char) : Nat :=
  match limits.find? (fun kv => startsWithL kv.1 path) with
  | some kv => kv.2
  | none =>
    match limits.find? (fun kv => kv.1 == "/".toList) with
    | some kv => kv.2
    | none => 64 * 1024

/-- Modelled from the spec's words (for comparison with `getSizeLimit`):
select the limit of the LONGEST table key that is a prefix of the path,
with the same fallback for unmatched paths. -/
def longestPrefixLimit (limits : List (List Char × Nat)) (path : List Char) : Nat :=
  let ms := limits.filter (fun kv => startsWithL kv.1 path)
  match ms.foldl (fun best kv =>
      match best with
      | none => some kv
      | some b => if b.1.length < kv.1.length then some kv else some b) none with
  | some kv => kv.2
  | none =>
    match limits.find? (fun kv => kv.1 == "/".toList) with
    | some kv => kv.2
    | none => 64 * 1024

theorem not_prefix_of_not_ext (a b p : List Char)
    (hab : startsWithL a b = true) (hap : startsWithL a p = false) :
    startsWithL b p = false := by
  cases hh : startsWithL b p
  · rfl
  · exact absurd (startsWithL_trans a b p hab hh) (by simp [hap])

theorem incomparable_false (a b p : List Char) (hap : startsWithL a p = true)
    (hab : startsWithL a b = false) (hba : startsWithL b a = false) :
    startsWithL b p = false := by
  cases hh : startsWithL b p
  · rfl
  · rcases startsWithL_total p a b hap hh with hc | hc
    · rw [hab] at hc; cases hc
    · rw [hba] at hc; cases hc

/-- On the default size-limit table, first-match in insertion order
coincides with longest-prefix match for every path. -/
theorem getSizeLimit_default_longest (p : List Char) :
    getSizeLimit defaultLimits p = longestPrefixLimit defaultLimits p := by
  cases h6 : startsWithL kRoot p
  · -- no key of the table matches p
    have h1 := not_prefix_of_not_ext kRoot kApiUpload p (by decide) h6
    have h2 := not_prefix_of_not_ext kRoot kApiImport p (by decide) h6
    have h3 := not_prefix_of_not_ext kRoot kApi p (by decide) h6
    have h4 := not_prefix_of_not_ext kRoot kWebhook p (by decide) h6
    have h5 := not_prefix_of_not_ext kRoot kGraphql p (by decide) h6
    simp [getSizeLimit, longestPrefixLimit, defaultLimits, h1, h2, h3, h4, h5, h6]
  · cases h3 : startsWithL kApi p
    · -- the /api/ group is out; h1, h2 follow
      have h1 := not_prefix_of_not_ext kApi kApiUpload p (by decide) h3
      have h2 := not_prefix_of_not_ext kApi kApiImport p (by decide) h3
      cases h4 : startsWithL kWebhook p
      · cases h5 : startsWithL kGraphql p
        · simp [getSizeLimit, longestPrefixLimit, defaultLimits, h1, h2, h3, h4, h5, h6]
        · simp [getSizeLimit, longestPrefixLimit, defaultLimits, h1, h2, h3, h4, h5, h6]
          decide
      · have h5 := incomparable_false kWebhook kGraphql p h4 (by decide) (by decide)
        simp [getSizeLimit, longestPrefixLimit, defaultLimits, h1, h2, h3, h4, h5, h6]
        decide
    · have h4 := incomparable_false kApi kWebhook p h3 (by decide) (by decide)
      have h5 := incomparable_false kApi kGraphql p h3 (by decide) (by decide)
      cases h1 : startsWithL kApiUpload p
      · cases h2 : startsWithL kApiImport p
        · simp [getSizeLimit, longestPrefixLimit, defaultLimits, h1, h2, h3, h4, h5, h6]
          decide
        · simp [getSizeLimit, longestPrefixLimit, defaultLimits, h1, h2, h3, h4, h5, h6]
          decide
      · have h2 := incomparable_false kApiUpload kApiImport p h1 (by decide) (by decide)
        simp [getSizeLimit, longestPrefixLimit, defaultLimits, h1, h2, h3, h4, h5, h6]
        decide

/-- Result of `ContentValidationMiddleware.dispatch`: pass the request
through, or short-circuit with a 413 (body carries `max_size`), a 415,
or a 400 response. -/
inductive CVResult where
  | pass
  | reject413 (maxSize : Nat)
  | reject415
  | reject400
  deriving Repr, DecidableEq

/-- The null-byte check at the end of
`ContentValidationMiddleware.dispatch` (security.py lines 188-199). -/
def cvNullCheck (blockNull : Bool) (url : List Char) : CVResult :=
  if blockNull ∧ '\x00' ∈ url then .reject400 else .pass

/-- The content-type check of `ContentValidationMiddleware.dispatch`
(security.py lines 165-186): parse the primary type
(`split(";")[0].strip()`, skipped when empty per Python truthiness),
reject with 415 when the method has a nonempty allow-list that does not
contain it. -/
def cvTypeCheck (allowedTypes : List (String × List (List Char))) (method : String)
    (contentType : Option (List Char)) (blockNull : Bool) (url : List Char) :
    CVResult :=
  let main := PyStr.trimChars (PyStr.splitFirst ';' (contentType.getD []))
  if main ≠ [] then
    let allowed := ((allowedTypes.find? (fun kv => kv.1 == method)).map
      (fun kv => kv.2)).getD []
    if allowed ≠ [] ∧ main ∉ allowed then .reject415
    else cvNullCheck blockNull url
  else cvNullCheck blockNull url

/-- `ContentValidationMiddleware.dispatch` (security.py lines 136-201):
GET/HEAD/OPTIONS skip validation entirely; a declared `Content-Length`
above the matched size limit is rejected with 413 carrying that limit as
`max_size`; then the content-type and null-byte checks run in order. -/
def cvDispatch (limits : List (List Char × Nat))
    (allowedTypes : List (String × List (List Char))) (blockNull : Bool)
    (method : String) (path : List Char) (contentLength : Option Nat)
    (contentType : Option (List Char)) (url : List Char) : CVResult :=
  if method = "GET" ∨ method = "HEAD" ∨ method = "OPTIONS" then .pass
  else
    match contentLength with
    | some size =>
      let limit := getSizeLimit limits path
      if limit < size then .reject413 limit
      else cvTypeCheck allowedTypes method contentType blockNull url
    | none => cvTypeCheck allowedTypes method contentType blockNull url

end ContentValidation

namespace ProxyTrust

/-- Python header truthiness for walrus patterns like
`if forwarded_for := request.headers.get("x-forwarded-for"):`
an absent header and an empty-string header both fail the test. -/
def truthy : Option (List Char) → Option (List Char)
  | some v => if v = [] then none else some v
  | none => none

/-- `forwarded_for.split(",")[0].strip()`. -/
def firstForwarded (v : List Char) : List Char :=
  PyStr.trimChars (PyStr.splitFirst ',' v)

/-- `ProxyHeadersMiddleware.dispatch` (security.py lines 392-412): the
rewrite it performs on the scope's client, scheme and server.  Headers
are consulted only when the transport-layer peer host is in the
trusted-proxy set; otherwise the scope passes through untouched. -/
def resolveScope (trusted : List (List Char)) (client : Option (List Char × Nat))
    (xff xrip xfproto xfhost : Option (List Char)) (scheme : List Char)
    (server : List Char × Nat) :
    Option (List Char × Nat) × List Char × (List Char × Nat) :=
  match client with
  | some (host, port) =>
    if host ∈ trusted then
      let client' :=
        match truthy xff with
        | some v => some (firstForwarded v, port)
        | none =>
          match truthy xrip with
          | some v => some (v, port)
          | none => some (host, port)
      let scheme' := (truthy xfproto).getD scheme
      let server' :=
        match truthy xfhost with
        | some v => (v, server.2)
        | none => server
      (client', scheme', server')
    else
      (some (host, port), scheme, server)
  | none => (client, scheme, server)

/-- `RedisRateLimitMiddleware._get_client_id` (rate_limit.py lines
202-222), up to the final privacy hash: the IP the rate limiter keys
on.  It starts from the transport peer (`request.client.host`, default
`"unknown"`) and then unconditionally prefers `X-Forwarded-For` (first
entry) or `X-Real-IP`, with no trusted-proxy gate.
(`SimpleRateLimitMiddleware._get_client_identifier`, security.py lines
289-307, and `DDoSProtectionMiddleware._get_client_ip`, advanced.py
lines 341-347, select the IP the same way.) -/
def getClientIp (clientHost : Option (List Char)) (xff xrip : Option (List Char)) :
    List Char :=
  let ip := clientHost.getD "unknown".toList
  match truthy xff with
  | some v => firstForwarded v
  | none =>
    match truthy xrip with
    | some v => v
    | none => ip

end ProxyTrust

namespace DDoS

/-- State of `DDoSProtectionMiddleware` for one client IP:
`connection_counts[ip]`, `request_counts[ip]`, and membership of
`blocked_ips` (advanced.py). -/
structure DDoSState where
  connCount : Nat
  reqTimes : List Nat
  blocked : Bool
  deriving Repr, DecidableEq

def initDDoS : DDoSState := ⟨0, [], false⟩

inductive DDoSResult where
  /-- 403 for an already-blocked IP. -/
  | blocked403
  /-- 429 on the request whose attack detection trips. -/
  | rejected429
  /-- Downstream handler ran; response returned. -/
  | completed
  deriving Repr, DecidableEq

/-- `DDoSProtectionMiddleware.dispatch` (advanced.py lines 304-339)
combined with `_detect_attack` (lines 349-372), for one client IP.  An
already-blocked IP is rejected (403) before any counting.  Otherwise
the connection count is incremented; if it exceeds the SYN threshold,
or after appending `now` and pruning to the last minute the request
rate exceeds its threshold, the IP joins `blocked_ips` and a 429 is
returned — this return path is OUTSIDE the `try/finally`, so no
decrement happens on it.  Only the `call_next` path decrements in the
`finally`.  (The unique-IP heuristic only logs and is omitted.) -/
def ddosDispatch (synTh rateTh : Nat) (s : DDoSState) (now : Nat) :
    DDoSState × DDoSResult :=
  if s.blocked then
    (s, .blocked403)
  else
    let c := s.connCount + 1
    if synTh < c then
      (⟨c, s.reqTimes, true⟩, .rejected429)
    else
      let times := (s.reqTimes ++ [now]).filter (fun t => now < t + 60)
      if rateTh < times.length then
        (⟨c, times, true⟩, .rejected429)
      else
        (⟨c - 1, times, false⟩, .completed)

/-- One cycle of `DDoSProtectionMiddleware._cleanup_loop` (advanced.py
lines 374-391) projected to one IP: the IP stays blocked exactly when
its live connection count is positive
(`blocked_ips = {ip for ip in blocked_ips if connection_counts[ip] > 0}`). -/
def ddosCleanup (s : DDoSState) : DDoSState :=
  ⟨s.connCount, s.reqTimes, s.blocked && decide (0 < s.connCount)⟩

/-- A request rejected by attack detection leaves the connection count
incremented: its net effect is `+1`, not `0`. -/
theorem ddosDispatch_reject_leaks (synTh rateTh : Nat) (s : DDoSState) (now : Nat)
    (h : (ddosDispatch synTh rateTh s now).2 = .rejected429) :
    (ddosDispatch synTh rateTh s now).1.connCount = s.connCount + 1 ∧
    (ddosDispatch synTh rateTh s now).1.blocked = true := by
  simp only [ddosDispatch] at h ⊢
  by_cases hb : s.blocked = true
  · rw [if_pos hb] at h
    exact absurd h (by simp)
  · rw [if_neg hb] at h ⊢
    by_cases hsyn : synTh < s.connCount + 1
    · rw [if_pos hsyn]
      exact ⟨rfl, rfl⟩
    · rw [if_neg hsyn] at h ⊢
      by_cases hrate : rateTh <
          ((s.reqTimes ++ [now]).filter (fun t => now < t + 60)).length
      · rw [if_pos hrate]
        exact ⟨rfl, rfl⟩
      · rw [if_neg hrate] at h
        exact absurd h (by simp)

/-- A blocked IP with a positive connection count is a fixed point of the
cleanup cycle: it is never unblocked. -/
theorem ddosCleanup_fixed (s : DDoSState) (hb : s.blocked = true)
    (hc : 0 < s.connCount) : ddosCleanup s = s := by
  unfold ddosCleanup
  rcases s with ⟨c, ts, b⟩
  simp only at hb hc
  subst hb
  simp [hc]

end DDoS

namespace AlertDispatch

/-- `AlertDispatcher._run_background_task` (alerting.py lines 162-182):
inside a running event loop the sink is submitted to an executor and
any exception it raises stays in the discarded future (the caller sees
a normal return); outside one, the sink runs synchronously and its
exception propagates to the caller. -/
def runBackgroundTask (inAsyncContext : Bool) (sink : Except Unit Unit) :
    Except Unit Unit :=
  if inAsyncContext then .ok () else sink

/-- `AlertDispatcher.dispatch` (alerting.py lines 85-121): run the Teams
sink when a webhook URL is configured, then the email sink when email
is configured, each through `_run_background_task`; an exception from
either statement propagates out of `dispatch` and skips what follows.
Result: the exception that escaped `dispatch` (if any) and whether each
sink was attempted (Teams, email). -/
def alertDispatch (teamsConfigured emailConfigured inAsync : Bool)
    (teamsResult emailResult : Except Unit Unit) :
    Option Unit × Bool × Bool :=
  if teamsConfigured then
    match runBackgroundTask inAsync teamsResult with
    | .error e => (some e, true, false)
    | .ok _ =>
      if emailConfigured then
        match runBackgroundTask inAsync emailResult with
        | .error e => (some e, true, true)
        | .ok _ => (none, true, true)
      else (none, true, false)
  else
    if emailConfigured then
      match runBackgroundTask inAsync emailResult with
      | .error e => (some e, false, true)
      | .ok _ => (none, false, true)
    else (none, false, false)

/-- Inside a running event loop, `dispatch` never raises and every
configured sink is attempted, whatever the sinks do. -/
theorem alertDispatch_async (teamsConfigured emailConfigured : Bool)
    (teamsResult emailResult : Except Unit Unit) :
    alertDispatch teamsConfigured emailConfigured true teamsResult emailResult =
      (none, teamsConfigured, emailConfigured) := by
  cases teamsConfigured <;> cases emailConfigured <;>
    simp [alertDispatch, runBackgroundTask]

end AlertDispatch

/-- C1: at every instant of every run from a fresh client, the minute
window holds at most `rpm + burst` timestamps (the burst allowance is
the headroom the code grants on the per-minute limit) and the hour
window at most `rph`; one call preserves that bound; and a denying call
appends nothing — the resulting windows are exactly the prunings of the
old windows to their horizons, so the in-horizon timestamps are
unchanged and only allowed requests append `now`. -/
theorem c1_sliding_window_bound_and_denial (rpm rph burst : Nat)
    (s : SimpleRateLimit.RLState) (now : ℚ) (ts : List ℚ) :
    SimpleRateLimit.RLInv rpm rph burst
      (SimpleRateLimit.runRL rpm rph burst ts SimpleRateLimit.initRL) ∧
    (SimpleRateLimit.RLInv rpm rph burst s →
      SimpleRateLimit.RLInv rpm rph burst
        (SimpleRateLimit.checkRateLimit rpm rph burst s now).1) ∧
    ((SimpleRateLimit.checkRateLimit rpm rph burst s now).2.1 = false →
      (SimpleRateLimit.checkRateLimit rpm rph burst s now).1.minute =
        s.minute.filter (fun t => now - 60 < t) ∧
      (SimpleRateLimit.checkRateLimit rpm rph burst s now).1.hour =
        s.hour.filter (fun t => now - 3600 < t)) := by
  refine ⟨?_, ?_, ?_⟩
  · refine SimpleRateLimit.runRL_inv rpm rph burst ts SimpleRateLimit.initRL ?_
    constructor <;> simp [SimpleRateLimit.initRL]
  · exact SimpleRateLimit.checkRateLimit_preserves_inv rpm rph burst s now
  · exact SimpleRateLimit.checkRateLimit_denied rpm rph burst s now

/-- Witness for C1 at a concrete input: `rpm = 1`, `burst = 0`,
`rph = 2`, a client whose windows hold the single timestamp `0`, and a
further request at `now = 30`, which is denied. -/
theorem c1_witness :
    SimpleRateLimit.RLInv 1 2 0
      (SimpleRateLimit.runRL 1 2 0 [0, 10, 20] SimpleRateLimit.initRL) ∧
    (SimpleRateLimit.checkRateLimit 1 2 0 ⟨[0], [0]⟩ 30).1.minute =
      ([0] : List ℚ).filter (fun t => (30 : ℚ) - 60 < t) := by
  refine ⟨(c1_sliding_window_bound_and_denial 1 2 0 ⟨[0], [0]⟩ 30 [0, 10, 20]).1, ?_⟩
  refine ((c1_sliding_window_bound_and_denial 1 2 0 ⟨[0], [0]⟩ 30 [0, 10, 20]).2.2 ?_).1
  norm_num [SimpleRateLimit.checkRateLimit]

/-- C2: the circuit breaker per endpoint key: (i) while open and before
the recovery timeout has elapsed since the last failure, every request
is rejected with 503 and `Retry-After: recovery_timeout`, without
invoking the downstream handler and without touching the state;
(ii) from a fresh endpoint, `threshold` consecutive failures open the
circuit; (iii) once the timeout has elapsed, the single half-open probe
proceeds downstream, and a success sets `failure_count` to `0` and the
state to closed; (iv) a failure on the probe re-opens immediately with a
fresh failure time; (v) reachable states keep `failure_count ≥
threshold` while open and never rest in half-open, which discharges
(iv)'s hypothesis. -/
theorem c2_circuit_breaker_state_machine (threshold timeout : Nat)
    (s : CircuitBreaker.CBState) (now code : Nat) (out : CircuitBreaker.Outcome)
    (es : List (Nat × CircuitBreaker.Outcome)) :
    (s.st = .opened → now < s.lastFailure + timeout →
      CircuitBreaker.cbDispatch threshold timeout s now out =
        (s, .reject (some timeout), false)) ∧
    (1 ≤ threshold → es.length = threshold →
      (∀ e ∈ es, CircuitBreaker.FailOut e.2) →
      (CircuitBreaker.runCB threshold timeout es CircuitBreaker.initCB).st =
        .opened) ∧
    (s.st = .opened → s.lastFailure + timeout ≤ now → code < 500 →
      CircuitBreaker.cbDispatch threshold timeout s now (.ok code) =
        (⟨.closed, 0, s.lastFailure⟩, .response code, true)) ∧
    (s.st = .opened → s.lastFailure + timeout ≤ now →
      CircuitBreaker.FailOut out → threshold ≤ s.failures →
      (CircuitBreaker.cbDispatch threshold timeout s now out).1 =
        ⟨.opened, s.failures + 1, now⟩ ∧
      (CircuitBreaker.cbDispatch threshold timeout s now out).2.2 = true) ∧
    (CircuitBreaker.CBInv threshold s →
      CircuitBreaker.CBInv threshold
        (CircuitBreaker.cbDispatch threshold timeout s now out).1) := by
  rcases s with ⟨st, f, lf⟩
  refine ⟨?_, ?_, ?_, ?_, ?_⟩
  · intro hst hcold
    dsimp only at hst
    subst hst
    exact CircuitBreaker.cbDispatch_open_cold threshold timeout f lf now out hcold
  · intro hth hlen hfail
    refine (CircuitBreaker.runCB_all_failures threshold timeout es
      CircuitBreaker.initCB hfail (Or.inl ?_)).1
    refine ⟨rfl, ?_, ?_⟩ <;> simp [CircuitBreaker.initCB, hlen]
    omega
  · intro hst helapsed hc
    dsimp only at hst
    subst hst
    exact CircuitBreaker.cbDispatch_open_probe_success threshold timeout f lf
      now code helapsed hc
  · intro hst helapsed hfo hth
    dsimp only at hst hth
    subst hst
    exact CircuitBreaker.cbDispatch_open_probe_fail threshold timeout f lf
      now out helapsed hfo hth
  · exact CircuitBreaker.cbDispatch_preserves_inv threshold timeout ⟨st, f, lf⟩ now out

/-- Witness for C2 at `threshold = 2`, `timeout = 10`: an open endpoint
with 2 failures last failing at time 100 rejects at time 105 and closes
on a successful probe at 110; two consecutive failures from a fresh
endpoint open it; a failed probe at 110 re-opens. -/
theorem c2_witness :
    CircuitBreaker.cbDispatch 2 10 ⟨.opened, 2, 100⟩ 105 (.ok 200) =
      (⟨.opened, 2, 100⟩, .reject (some 10), false) ∧
    (CircuitBreaker.runCB 2 10 [(0, .ok 500), (1, .exn)] CircuitBreaker.initCB).st =
      .opened ∧
    CircuitBreaker.cbDispatch 2 10 ⟨.opened, 2, 100⟩ 110 (.ok 200) =
      (⟨.closed, 0, 100⟩, .response 200, true) ∧
    (CircuitBreaker.cbDispatch 2 10 ⟨.opened, 2, 100⟩ 110 .exn).1 =
      ⟨.opened, 3, 110⟩ ∧
    CircuitBreaker.CBInv 2
      (CircuitBreaker.cbDispatch 2 10 ⟨.opened, 2, 100⟩ 110 .exn).1 := by
  have h := c2_circuit_breaker_state_machine 2 10 ⟨.opened, 2, 100⟩ 110 200 .exn
    [(0, .ok 500), (1, .exn)]
  refine ⟨?_, ?_, ?_, ?_, ?_⟩
  · exact (c2_circuit_breaker_state_machine 2 10 ⟨.opened, 2, 100⟩ 105 200 .exn
      [(0, .ok 500), (1, .exn)]).1 rfl (by decide)
  · exact h.2.1 (by decide) (by decide) (by decide)
  · exact h.2.2.1 rfl (by decide) (by decide)
  · exact (h.2.2.2.1 rfl (by decide) (by decide) (by decide)).1
  · exact h.2.2.2.2 (by decide)

/-- C3: for each event type, a fired alert leaves the counter at `0`, and
the firing times of any run are pairwise more than `cooldown` apart, so
at most one alert fires per event type within any cooldown interval no
matter how many threshold crossings occur. -/
theorem c3_alert_cooldown_and_reset (threshold cooldown : Nat)
    (s s' : Alerting.AlertState) (now c : Nat) (ts : List Nat) :
    (Alerting.checkAlert threshold cooldown s now = (s', some c) →
      s'.counter = 0) ∧
    ((Alerting.runAlerts threshold cooldown ts s).2).Pairwise
      (fun a b => a + cooldown < b) := by
  constructor
  · intro h
    rw [(Alerting.checkAlert_fired_inv h).1]
  · exact Alerting.runAlerts_pairwise threshold cooldown ts s

/-- Witness for C3: with `threshold = 1`, `cooldown = 5`, a fresh event
type fires at time 10 and its counter is back at `0`. -/
theorem c3_witness : (Alerting.AlertState.mk 0 10).counter = 0 :=
  (c3_alert_cooldown_and_reset 1 5 ⟨0, 0⟩ ⟨0, 10⟩ 10 1 []).1 (by decide)

/-- C4 counterexample: the in-memory limiter's minute-horizon denial
returns the constant `60` where `ceil(oldest + 60 - now)` is `30`, and
its hour-horizon denial truncates (`int(...)`, i.e. floor) where the
ceiling is one larger. -/
theorem c4_counterexample :
    (SimpleRateLimit.checkRateLimit 1 10 0 ⟨[0], [0]⟩ 30).2 = (false, 60) ∧
    (⌈((0 : ℚ) + 60 - 30)⌉ : ℤ) = 30 ∧
    (SimpleRateLimit.checkRateLimit 10 1 0 ⟨[0], [1/2]⟩ 1000).2 = (false, 2600) ∧
    (⌈((1 : ℚ)/2 + 3600 - 1000)⌉ : ℤ) = 2601 := by
  refine ⟨?_, by norm_num, ?_, ?_⟩
  · norm_num [SimpleRateLimit.checkRateLimit]
  · norm_num [SimpleRateLimit.checkRateLimit, List.min?]
  · norm_num [Int.ceil_eq_iff]

/-- C4 amended: the Redis Lua script's denial returns
`ceil(oldest + window - now)` — the least integer `r` such that the
oldest counted timestamp has aged out after `r` seconds — while the
in-memory limiter returns the constant `60` on minute-horizon denials
and `floor(oldest + 3600 - now)` on hour-horizon denials. -/
theorem c4_retry_after_formulas (limit rpm rph burst : Nat) (window : ℚ)
    (zset : List ℚ) (now oldest : ℚ) (s : SimpleRateLimit.RLState) :
    ((((zset.filter (fun t => now - window < t)).min?) = some oldest) →
      (RedisRateLimit.luaRateLimit limit window zset now).2.1 = false →
      (RedisRateLimit.luaRateLimit limit window zset now).2.2 =
        ⌈oldest + window - now⌉ ∧
      oldest + window ≤ now + (RedisRateLimit.luaRateLimit limit window zset now).2.2 ∧
      (∀ r : ℤ, oldest + window ≤ now + r →
        (RedisRateLimit.luaRateLimit limit window zset now).2.2 ≤ r)) ∧
    (rpm + burst ≤ (s.minute.filter (fun t => now - 60 < t)).length →
      (SimpleRateLimit.checkRateLimit rpm rph burst s now).2 = (false, 60)) ∧
    (¬ rpm + burst ≤ (s.minute.filter (fun t => now - 60 < t)).length →
      rph ≤ (s.hour.filter (fun t => now - 3600 < t)).length →
      ((s.hour.filter (fun t => now - 3600 < t)).min?) = some oldest →
      (SimpleRateLimit.checkRateLimit rpm rph burst s now).2 =
        (false, ⌊oldest + 3600 - now⌋)) := by
  refine ⟨?_, ?_, ?_⟩
  · intro hmin hdeny
    exact RedisRateLimit.luaRateLimit_retry_minimal limit window zset now oldest
      hmin hdeny
  · intro hm
    simp [SimpleRateLimit.checkRateLimit, hm]
  · intro hm hh hmin
    simp [SimpleRateLimit.checkRateLimit, hm, hh, hmin]

/-- Witness for C4's amended statement: Lua denial at `limit = 1`,
window 60, one timestamp `0`, `now = 30` gives retry-after 30; the
in-memory minute denial gives 60 at the same state; the in-memory hour
denial at `oldest = 1/2`, `now = 1000` gives `⌊2600.5⌋`. -/
theorem c4_witness :
    (RedisRateLimit.luaRateLimit 1 60 [0] 30).2.2 = ⌈(0 : ℚ) + 60 - 30⌉ ∧
    (SimpleRateLimit.checkRateLimit 1 10 0 ⟨[0], [0]⟩ 30).2 = (false, 60) ∧
    (SimpleRateLimit.checkRateLimit 10 1 0 ⟨[0], [1/2]⟩ 1000).2 =
      (false, ⌊(1 : ℚ)/2 + 3600 - 1000⌋) := by
  have h := c4_retry_after_formulas 1 1 10 0 60 [0] 30 0 ⟨[0], [0]⟩
  have h2 := c4_retry_after_formulas 1 10 1 0 60 [0] 1000 (1/2) ⟨[0], [1/2]⟩
  refine ⟨?_, ?_, ?_⟩
  · exact (h.1 (by norm_num [List.min?]) (by norm_num [RedisRateLimit.luaRateLimit])).1
  · exact h.2.1 (by norm_num)
  · exact h2.2.2 (by norm_num) (by norm_num) (by norm_num [List.min?])

/-- C5: the DDoS guard's attack-detection rejection path returns after
incrementing the connection count but outside the `try/finally`, so the
count leaks by `+1`; a fresh client tripping the SYN threshold is left
blocked with a permanently positive live-connection count, and every
future 5-minute cleanup cycle keeps it blocked — it is never unblocked. -/
theorem c5_ddos_decrement_missing_on_reject :
    DDoS.ddosDispatch 0 1000 DDoS.initDDoS 5 =
      (⟨1, [], true⟩, .rejected429) ∧
    (∀ k : Nat, DDoS.ddosCleanup^[k] ⟨1, [], true⟩ = ⟨1, [], true⟩) := by
  constructor
  · decide
  · intro k
    exact Function.iterate_fixed (by decide) k

/-- C6 counterexample: `_get_size_limit` is first-match in the table's
insertion order, not longest-prefix match: with the configurable table
`{"/a": 1, "/ab": 2}` the path `/ab` gets limit `1`, while the longest
matching key `/ab` carries limit `2`. -/
theorem c6_counterexample :
    ContentValidation.getSizeLimit
      [("/a".toList, 1), ("/ab".toList, 2)] "/ab".toList = 1 ∧
    ContentValidation.longestPrefixLimit
      [("/a".toList, 1), ("/ab".toList, 2)] "/ab".toList = 2 ∧
    (1 : Nat) ≠ 2 := by
  refine ⟨by decide, by decide, by decide⟩

/-- C6 amended: `_get_size_limit` selects the limit of the first table
key (in insertion order) that is a prefix of the path, falling back to
the table's `"/"` entry; on the shipped `DEFAULT_LIMITS` table this
coincides with longest-prefix selection for every path, and the
resulting limit is what the declared `Content-Length` is compared
against (see C9). -/
theorem c6_default_table_first_match_is_longest (p : List Char) :
    ContentValidation.getSizeLimit ContentValidation.defaultLimits p =
      ContentValidation.longestPrefixLimit ContentValidation.defaultLimits p :=
  ContentValidation.getSizeLimit_default_longest p

/-- C7: called outside a running event loop (as the repository's own
synchronous tests do), a Teams-sink failure escapes
`AlertDispatcher.dispatch` and the email sink is never attempted —
contradicting the module's documented contract and its tests; inside a
running event loop the failure stays in the executor and both sinks are
attempted. -/
theorem c7_dispatch_sync_raises_and_skips_email :
    AlertDispatch.alertDispatch true true false (.error ()) (.ok ()) =
      (some (), true, false) ∧
    AlertDispatch.alertDispatch true true true (.error ()) (.ok ()) =
      (none, true, true) := by
  exact ⟨by decide, by decide⟩

/-- C8 counterexample: the rate limiter's client-id derivation reads
`X-Forwarded-For` unconditionally, so a peer not in the default trusted
set (`{"127.0.0.1", "::1"}`) changes its resolved address from
`9.9.9.9` to the spoofed `1.2.3.4` just by sending the header. -/
theorem c8_counterexample :
    ProxyTrust.getClientIp (some "9.9.9.9".toList) (some "1.2.3.4".toList) none =
      "1.2.3.4".toList ∧
    ProxyTrust.getClientIp (some "9.9.9.9".toList) none none = "9.9.9.9".toList ∧
    "9.9.9.9".toList ∉ ["127.0.0.1".toList, "::1".toList] ∧
    "1.2.3.4".toList ≠ "9.9.9.9".toList := by
  refine ⟨by decide, by decide, by decide, by decide⟩

/-- C8 amended: `ProxyHeadersMiddleware` itself never lets forwarded
headers from an untrusted peer alter the scope: for a peer host outside
the trusted-proxy set, the resolved client, scheme and server are
identical whatever `X-Forwarded-For` / `X-Real-IP` /
`X-Forwarded-Proto` / `X-Forwarded-Host` carry — but the rate limiter's
own `_get_client_id` bypasses this middleware's gate (see the
counterexample). -/
theorem c8_proxy_untrusted_noninterference (trusted : List (List Char))
    (host : List Char) (port : Nat) (xff xrip xfproto xfhost : Option (List Char))
    (scheme : List Char) (server : List Char × Nat)
    (h : host ∉ trusted) :
    ProxyTrust.resolveScope trusted (some (host, port)) xff xrip xfproto xfhost
      scheme server = (some (host, port), scheme, server) := by
  simp [ProxyTrust.resolveScope, h]

/-- Witness for C8's amended statement: an untrusted peer `9.9.9.9` with
a spoofed `X-Forwarded-For` leaves the scope unchanged. -/
theorem c8_witness :
    ProxyTrust.resolveScope ["127.0.0.1".toList, "::1".toList]
      (some ("9.9.9.9".toList, 443)) (some "1.2.3.4".toList) none none none
      "https".toList ("api.example.com".toList, 443) =
      (some ("9.9.9.9".toList, 443), "https".toList,
        ("api.example.com".toList, 443)) :=
  c8_proxy_untrusted_noninterference ["127.0.0.1".toList, "::1".toList]
    "9.9.9.9".toList 443 (some "1.2.3.4".toList) none none none
    "https".toList ("api.example.com".toList, 443) (by decide)

/-- C9: a body-carrying method (anything outside GET/HEAD/OPTIONS)
declaring a `Content-Length` above the limit matched for its path is
rejected with 413 carrying that limit as `max_size`; a GET request is
passed through whatever `Content-Length` it declares, so it is never
rejected on size grounds. -/
theorem c9_content_length_enforcement (limits : List (List Char × Nat))
    (allowedTypes : List (String × List (List Char))) (blockNull : Bool)
    (method : String) (path : List Char) (n : Nat)
    (contentType : Option (List Char)) (url : List Char) :
    (method = "GET" →
      ContentValidation.cvDispatch limits allowedTypes blockNull method path
        (some n) contentType url = .pass) ∧
    (method ≠ "GET" → method ≠ "HEAD" → method ≠ "OPTIONS" →
      ContentValidation.getSizeLimit limits path < n →
      ContentValidation.cvDispatch limits allowedTypes blockNull method path
        (some n) contentType url =
        .reject413 (ContentValidation.getSizeLimit limits path)) := by
  constructor
  · intro h
    simp [ContentValidation.cvDispatch, h]
  · intro h1 h2 h3 h4
    simp [ContentValidation.cvDispatch, h1, h2, h3, h4]

/-- Witness for C9: a POST to `/api/x` declaring 2 MB against the
default table's 1 MB `/api/` limit is rejected with that limit; a GET
declaring the same is passed through. -/
theorem c9_witness :
    ContentValidation.cvDispatch ContentValidation.defaultLimits [] true "POST"
      "/api/x".toList (some 2000000) none "/api/x".toList =
      .reject413 (ContentValidation.getSizeLimit ContentValidation.defaultLimits
        "/api/x".toList) ∧
    ContentValidation.cvDispatch ContentValidation.defaultLimits [] true "GET"
      "/api/x".toList (some 2000000) none "/api/x".toList = .pass := by
  constructor
  · exact (c9_content_length_enforcement ContentValidation.defaultLimits [] true
      "POST" "/api/x".toList 2000000 none "/api/x".toList).2
      (by decide) (by decide) (by decide) (by decide)
  · exact (c9_content_length_enforcement ContentValidation.defaultLimits [] true
      "GET" "/api/x".toList 2000000 none "/api/x".toList).1 rfl

/-- C10: when the counter reaches the threshold while the cooldown has
not yet elapsed, `_check_alert` neither fires nor resets — the counter
keeps accumulating; any alert that does fire carries the full
accumulated counter value (`_send_alert` reads it before the reset),
which can strictly exceed the threshold: with threshold 3 and cooldown
300, events at times 1, 2, 3 leave the counter at 3, and the event at
time 400 fires with count 4 > 3. -/
theorem c10_counter_accumulates_through_cooldown (threshold cooldown : Nat)
    (s s' : Alerting.AlertState) (now c : Nat) :
    (threshold ≤ s.counter + 1 → ¬ s.lastAlert + cooldown < now →
      Alerting.checkAlert threshold cooldown s now =
        (⟨s.counter + 1, s.lastAlert⟩, none)) ∧
    (Alerting.checkAlert threshold cooldown s now = (s', some c) →
      c = s.counter + 1) ∧
    ((Alerting.runAlerts 3 300 [1, 2, 3] Alerting.initAlert).1 =
        ⟨3, 0⟩ ∧
      Alerting.checkAlert 3 300 ⟨3, 0⟩ 400 = (⟨0, 400⟩, some 4) ∧ 3 < 4) := by
  refine ⟨?_, ?_, by decide, by decide, by decide⟩
  · intro h1 h2
    simp [Alerting.checkAlert, h1, h2]
  · intro h
    exact (Alerting.checkAlert_fired_inv h).2.1

/-- Witness for C10: at threshold 3, cooldown 300, a counter of 2 with
an alert history at time 0 sees an event at time 100: the threshold is
crossed but the cooldown blocks the alert, and the counter moves to 3
without resetting. -/
theorem c10_witness :
    Alerting.checkAlert 3 300 ⟨2, 0⟩ 100 = (⟨3, 0⟩, none) :=
  (c10_counter_accumulates_through_cooldown 3 300 ⟨2, 0⟩ ⟨0, 0⟩ 100 0).1
    (by decide) (by decide)
